import Mathlib

/-
Verification of the algodiff forward-mode automatic differentiation core.

The development shallowly embeds the C++ sources:
  include/algodiff/dual_number.hpp      (the DualNumber class and operators)
  src/dual_number_ops.cpp               (the elementary-function library)
  include/algodiff/forward_mode.hpp     (the seeding / evaluation engine)

An IEEE-754 double is modelled by the type FV: a finite value (an exact
rational, abstracting from rounding, on which none of the verified
properties depend), +infinity, -infinity, or NaN.  Signed zero is not
modelled: division by a zero of either sign behaves as division by +0.
The C standard library functions the sources call (std::log, std::asin,
std::sqrt, ...) are external to the repository; their finite values are
abstracted by the parameter structure RealFuns, while their special-value
behaviour (C99 Annex F) is modelled concretely.
-/

namespace Algodiff

/-- Model of an IEEE-754 double value: a finite value (an exact rational),
positive infinity, negative infinity, or NaN. -/
inductive FV where
  | fin : ℚ → FV
  | pinf : FV
  | ninf : FV
  | nan : FV
deriving DecidableEq

/-- IEEE negation of a double value. -/
def fneg : FV → FV
  | FV.fin q => FV.fin (-q)
  | FV.pinf => FV.ninf
  | FV.ninf => FV.pinf
  | FV.nan => FV.nan

/-- IEEE addition of double values (exact on finite values). -/
def fadd : FV → FV → FV
  | FV.nan, _ => FV.nan
  | _, FV.nan => FV.nan
  | FV.fin q, FV.fin r => FV.fin (q + r)
  | FV.fin _, FV.pinf => FV.pinf
  | FV.fin _, FV.ninf => FV.ninf
  | FV.pinf, FV.fin _ => FV.pinf
  | FV.ninf, FV.fin _ => FV.ninf
  | FV.pinf, FV.pinf => FV.pinf
  | FV.ninf, FV.ninf => FV.ninf
  | FV.pinf, FV.ninf => FV.nan
  | FV.ninf, FV.pinf => FV.nan

/-- IEEE subtraction of double values. -/
def fsub (a b : FV) : FV := fadd a (fneg b)

/-- IEEE multiplication of double values (exact on finite values);
zero times an infinity is NaN. -/
def fmul : FV → FV → FV
  | FV.nan, _ => FV.nan
  | _, FV.nan => FV.nan
  | FV.fin q, FV.fin r => FV.fin (q * r)
  | FV.fin q, FV.pinf =>
      if 0 < q then FV.pinf else if q < 0 then FV.ninf else FV.nan
  | FV.fin q, FV.ninf =>
      if 0 < q then FV.ninf else if q < 0 then FV.pinf else FV.nan
  | FV.pinf, FV.fin r =>
      if 0 < r then FV.pinf else if r < 0 then FV.ninf else FV.nan
  | FV.ninf, FV.fin r =>
      if 0 < r then FV.ninf else if r < 0 then FV.pinf else FV.nan
  | FV.pinf, FV.pinf => FV.pinf
  | FV.pinf, FV.ninf => FV.ninf
  | FV.ninf, FV.pinf => FV.ninf
  | FV.ninf, FV.ninf => FV.pinf

/-- IEEE division of double values (exact on finite values); a nonzero
finite value divided by zero gives a signed infinity, zero divided by zero
gives NaN, an infinity divided by an infinity gives NaN. -/
def fdiv : FV → FV → FV
  | FV.nan, _ => FV.nan
  | _, FV.nan => FV.nan
  | FV.fin q, FV.fin r =>
      if r = 0 then
        (if q = 0 then FV.nan else if 0 < q then FV.pinf else FV.ninf)
      else FV.fin (q / r)
  | FV.fin _, FV.pinf => FV.fin 0
  | FV.fin _, FV.ninf => FV.fin 0
  | FV.pinf, FV.fin r => if r < 0 then FV.ninf else FV.pinf
  | FV.ninf, FV.fin r => if r < 0 then FV.pinf else FV.ninf
  | FV.pinf, FV.pinf => FV.nan
  | FV.pinf, FV.ninf => FV.nan
  | FV.ninf, FV.pinf => FV.nan
  | FV.ninf, FV.ninf => FV.nan

/-- IEEE absolute value of a double value (std::abs). -/
def fabs : FV → FV
  | FV.fin q => FV.fin |q|
  | FV.pinf => FV.pinf
  | FV.ninf => FV.pinf
  | FV.nan => FV.nan

/-- IEEE strict less-than on double values: any comparison with NaN
is false. -/
def flt : FV → FV → Bool
  | FV.nan, _ => false
  | _, FV.nan => false
  | FV.fin q, FV.fin r => decide (q < r)
  | FV.fin _, FV.pinf => true
  | FV.ninf, FV.fin _ => true
  | FV.ninf, FV.pinf => true
  | _, _ => false

/-- A double value is special when it is an infinity or NaN. -/
def FV.isSpecial (x : FV) : Prop := x = FV.pinf ∨ x = FV.ninf ∨ x = FV.nan

instance (x : FV) : Decidable x.isSpecial := by
  unfold FV.isSpecial; infer_instance

/-- The DualNumber class of dual_number.hpp: a primal and a dual double
component. -/
structure DualNumber where
  primal : FV
  dual : FV
deriving DecidableEq

/-- A default-constructed DualNumber: both members are initialised to 0.0. -/
def DN0 : DualNumber := ⟨FV.fin 0, FV.fin 0⟩

/-- std::numeric_limits of double, epsilon(): 2 to the power -52. -/
def eps : FV := FV.fin (1 / 4503599627370496)

namespace DualNumber

/-- operator-= on two DualNumbers: component-wise subtraction of the
right operand from the left, returning the updated left operand. -/
def subAssign (l r : DualNumber) : DualNumber :=
  ⟨fsub l.primal r.primal, fsub l.dual r.dual⟩

/-- operator+= on two DualNumbers: component-wise addition, returning the
updated left operand. -/
def addAssign (l r : DualNumber) : DualNumber :=
  ⟨fadd l.primal r.primal, fadd l.dual r.dual⟩

/-- value-returning operator+ : delegates to operator+=. -/
def add (l r : DualNumber) : DualNumber := addAssign l r

/-- value-returning operator- : delegates to operator-=. -/
def sub (l r : DualNumber) : DualNumber := subAssign l r

/-- unary operator- : negates both components. -/
def neg (a : DualNumber) : DualNumber := ⟨fneg a.primal, fneg a.dual⟩

/-- operator*= on two DualNumbers: the primal becomes the product of the
primals and the dual follows the product rule, using the saved copies
primal_comp and dual_comp of the left operand's components. -/
def mulAssign (l r : DualNumber) : DualNumber :=
  ⟨fmul l.primal r.primal,
   fadd (fmul l.primal r.dual) (fmul l.dual r.primal)⟩

/-- value-returning operator* : delegates to operator*=. -/
def mul (l r : DualNumber) : DualNumber := mulAssign l r

/-- operator/= on two DualNumbers: the primal becomes the quotient of the
primals and the dual follows the quotient rule. -/
def divAssign (l r : DualNumber) : DualNumber :=
  ⟨fdiv l.primal r.primal,
   fdiv (fsub (fmul l.dual r.primal) (fmul l.primal r.dual))
        (fmul r.primal r.primal)⟩

/-- value-returning operator/ : delegates to operator/=. -/
def div (l r : DualNumber) : DualNumber := divAssign l r

/-- operator== of dual_number.hpp.  The C++ body is
"this equals the address of other, or both component differences are below
machine epsilon"; the address test is visible at the value level only
through the extra flag sameObject, true exactly when both operands are one
object. -/
def beq (sameObject : Bool) (l r : DualNumber) : Bool :=
  sameObject ||
    (flt (fabs (fsub l.primal r.primal)) eps &&
     flt (fabs (fsub l.dual r.dual)) eps)

/-- operator!= of dual_number.hpp: the negation of operator==. -/
def bne (sameObject : Bool) (l r : DualNumber) : Bool :=
  !(beq sameObject l r)

end DualNumber

/-- Finite values of the C math library functions the sources call.  The
library is external to the repository, so its finite values are abstract
parameters; each field gives the value on the function's real domain.
The special-value behaviour (C99 Annex F) is modelled concretely in the
mstd functions below. -/
structure RealFuns where
  rlog : ℚ → ℚ
  rsqrt : ℚ → ℚ
  rasin : ℚ → ℚ
  racos : ℚ → ℚ
  ratanh : ℚ → ℚ
  racosh : ℚ → ℚ

/-- std::log on double values: NaN below zero, -infinity at zero,
+infinity at +infinity, NaN at -infinity. -/
def mstdlog (L : RealFuns) : FV → FV
  | FV.nan => FV.nan
  | FV.pinf => FV.pinf
  | FV.ninf => FV.nan
  | FV.fin q =>
      if q < 0 then FV.nan
      else if q = 0 then FV.ninf
      else FV.fin (L.rlog q)

/-- std::sqrt on double values: NaN below zero and at -infinity. -/
def mstdsqrt (L : RealFuns) : FV → FV
  | FV.nan => FV.nan
  | FV.pinf => FV.pinf
  | FV.ninf => FV.nan
  | FV.fin q => if q < 0 then FV.nan else FV.fin (L.rsqrt q)

/-- std::asin on double values: NaN outside the closed interval from -1
to 1 and at the infinities. -/
def mstdasin (L : RealFuns) : FV → FV
  | FV.nan => FV.nan
  | FV.pinf => FV.nan
  | FV.ninf => FV.nan
  | FV.fin q => if 1 < |q| then FV.nan else FV.fin (L.rasin q)

/-- std::acos on double values: NaN outside the closed interval from -1
to 1 and at the infinities. -/
def mstdacos (L : RealFuns) : FV → FV
  | FV.nan => FV.nan
  | FV.pinf => FV.nan
  | FV.ninf => FV.nan
  | FV.fin q => if 1 < |q| then FV.nan else FV.fin (L.racos q)

/-- std::atanh on double values: a signed infinity at plus or minus 1,
NaN beyond and at the infinities. -/
def mstdatanh (L : RealFuns) : FV → FV
  | FV.nan => FV.nan
  | FV.pinf => FV.nan
  | FV.ninf => FV.nan
  | FV.fin q =>
      if q = 1 then FV.pinf
      else if q = -1 then FV.ninf
      else if 1 < |q| then FV.nan
      else FV.fin (L.ratanh q)

/-- std::acosh on double values: NaN below 1 and at -infinity, +infinity
at +infinity. -/
def mstdacosh (L : RealFuns) : FV → FV
  | FV.nan => FV.nan
  | FV.pinf => FV.pinf
  | FV.ninf => FV.nan
  | FV.fin q => if q < 1 then FV.nan else FV.fin (L.racosh q)

/-- The abs function of dual_number_ops.cpp: primal abs of the primal,
dual the dual times the primal divided by the abs of the primal; the
zero primal is not special-cased. -/
def abs (num : DualNumber) : DualNumber :=
  ⟨fabs num.primal, fdiv (fmul num.dual num.primal) (fabs num.primal)⟩

/-- The log function of dual_number_ops.cpp: primal std::log of the
primal, dual the dual divided by the primal. -/
def log (L : RealFuns) (num : DualNumber) : DualNumber :=
  ⟨mstdlog L num.primal, fdiv num.dual num.primal⟩

/-- The asin function of dual_number_ops.cpp: primal std::asin of the
primal, dual the dual divided by std::sqrt of one minus the primal
squared. -/
def asin (L : RealFuns) (num : DualNumber) : DualNumber :=
  ⟨mstdasin L num.primal,
   fdiv num.dual
        (mstdsqrt L (fsub (FV.fin 1) (fmul num.primal num.primal)))⟩

/-- The acos function of dual_number_ops.cpp: primal std::acos of the
primal, dual the negated dual divided by std::sqrt of one minus the
primal squared. -/
def acos (L : RealFuns) (num : DualNumber) : DualNumber :=
  ⟨mstdacos L num.primal,
   fdiv (fneg num.dual)
        (mstdsqrt L (fsub (FV.fin 1) (fmul num.primal num.primal)))⟩

/-- The atanh function of dual_number_ops.cpp: primal std::atanh of the
primal, dual the dual divided by one minus the primal squared. -/
def atanh (L : RealFuns) (num : DualNumber) : DualNumber :=
  ⟨mstdatanh L num.primal,
   fdiv num.dual (fsub (FV.fin 1) (fmul num.primal num.primal))⟩

/-- The acosh function of dual_number_ops.cpp: primal std::acosh of the
primal, dual the dual divided by std::sqrt of the primal squared minus
one. -/
def acosh (L : RealFuns) (num : DualNumber) : DualNumber :=
  ⟨mstdacosh L num.primal,
   fdiv num.dual
        (mstdsqrt L (fsub (fmul num.primal num.primal) (FV.fin 1)))⟩

/-- A concrete instance of RealFuns, used only to instantiate theorems at
concrete inputs. -/
def trivFuns : RealFuns :=
  ⟨fun _ => 0, fun _ => 0, fun _ => 0, fun _ => 0, fun _ => 0, fun _ => 0⟩

/-
The seeding / evaluation engine of forward_mode.hpp.  Input containers
(std::vector and the Eigen column vectors, dynamic or fixed size) are all
modelled as Lean lists, so each pair of container overloads with the same
loop structure is modelled by one definition.  The loops mutate a shared
vector of DualNumbers; the model passes that vector as explicit state and
additionally records the trace of the calls to the user function f: one
trace entry per call, holding the exact argument vector f received
together with the value the loop extracted from the call.
-/

/-- The scalar evaluate overload of forward_mode.hpp: f applied to the
single DualNumber seeded with primal u and dual 1.0. -/
def evaluate (f : DualNumber → DualNumber) (u : FV) : DualNumber :=
  f ⟨u, FV.fin 1⟩

/-- The scalar derivative overload of forward_mode.hpp: the dual component
of evaluate. -/
def derivative (f : DualNumber → DualNumber) (u : FV) : FV :=
  (evaluate f u).dual

/-- The seed vector the vector overloads start from: each input entry
becomes a DualNumber with that primal and dual 0.0. -/
def zeros (u : List FV) : List DualNumber :=
  u.map (fun x => ⟨x, FV.fin 0⟩)

/-- Assignment num.dual() = d to the vector entry at one index, leaving
the primal and every other entry unchanged. -/
def setDualAt (d : FV) : List DualNumber → Nat → List DualNumber
  | [], _ => []
  | x :: xs, 0 => ⟨x.primal, d⟩ :: xs
  | x :: xs, Nat.succ n => x :: setDualAt d xs n

/-- Modelled from the spec: the seeded input vector whose entry at index j
is the DualNumber with primal u at j and dual 1.0 when j equals i and 0.0
otherwise.  This is the spec-side description of the vector the engine is
claimed to pass to f on iteration i; the loop lemmas below relate the
engine's mutated state to it. -/
def specSeed : List FV → Nat → List DualNumber
  | [], _ => []
  | x :: xs, 0 => ⟨x, FV.fin 1⟩ :: zeros xs
  | x :: xs, Nat.succ i => ⟨x, FV.fin 0⟩ :: specSeed xs i

/-- The loop body of the vector evaluate overloads, iterated k times
starting at index i: set the dual at the current index to 1.0, call f on
the whole current vector, record the call, reset the dual to 0.0, and
continue.  Returns the trace of calls (argument passed to f, result of f)
and the final state of the shared vector. -/
def evalLoop (f : List DualNumber → DualNumber) (st : List DualNumber) :
    Nat → Nat → List (List DualNumber × DualNumber) × List DualNumber
  | _, 0 => ([], st)
  | i, Nat.succ k =>
      let st1 := setDualAt (FV.fin 1) st i
      let r := f st1
      let st2 := setDualAt (FV.fin 0) st1 i
      let rest := evalLoop f st2 (i + 1) k
      ((st1, r) :: rest.1, rest.2)

/-- The vector evaluate overloads of forward_mode.hpp (std::vector and
Eigen): the list of results of f, one per seeded index in input order. -/
def evaluateVec (f : List DualNumber → DualNumber) (u : List FV) :
    List DualNumber :=
  ((evalLoop f (zeros u) 0 u.length).1).map Prod.snd

/-- The argument vectors passed to f by the vector evaluate overloads,
one per call in call order. -/
def evalCalls (f : List DualNumber → DualNumber) (u : List FV) :
    List (List DualNumber) :=
  ((evalLoop f (zeros u) 0 u.length).1).map Prod.fst

/-- The gradient overloads of forward_mode.hpp: the dual components of the
vector evaluate results. -/
def gradient (f : List DualNumber → DualNumber) (u : List FV) : List FV :=
  (evaluateVec f u).map DualNumber.dual

/-- The loop body of the vector-valued jacobian overloads, iterated k
times starting at index i: seed the current index, call f once on the
whole current vector, harvest the dual of each of the m outputs into one
column, reset the seed, and continue.  Returns the trace of calls
(argument passed to f, harvested column) and the final state of the
shared vector. -/
def jacLoop (m : Nat) (f : List DualNumber → List DualNumber)
    (st : List DualNumber) :
    Nat → Nat → List (List DualNumber × List FV) × List DualNumber
  | _, 0 => ([], st)
  | i, Nat.succ k =>
      let st1 := setDualAt (FV.fin 1) st i
      let result := f st1
      let col := (List.range m).map (fun j => (result.getD j DN0).dual)
      let st2 := setDualAt (FV.fin 0) st1 i
      let rest := jacLoop m f st2 (i + 1) k
      ((st1, col) :: rest.1, rest.2)

/-- The single-function jacobian overloads of forward_mode.hpp (template
parameter FunctionSize = m): the matrix as its list of columns, one column
per input index. -/
def jacobianF (m : Nat) (f : List DualNumber → List DualNumber)
    (u : List FV) : List (List FV) :=
  ((jacLoop m f (zeros u) 0 u.length).1).map Prod.snd

/-- The argument vectors passed to f by the single-function jacobian
overloads, one per call in call order. -/
def jacCalls (m : Nat) (f : List DualNumber → List DualNumber)
    (u : List FV) : List (List DualNumber) :=
  ((jacLoop m f (zeros u) 0 u.length).1).map Prod.fst

/-- Entry at row j and column i of the matrix returned by the
single-function jacobian: row j of column i. -/
def jacEntry (m : Nat) (f : List DualNumber → List DualNumber)
    (u : List FV) (j i : Nat) : FV :=
  ((jacobianF m f u).getD i []).getD j (FV.fin 0)

/-- The multi-function jacobian overloads of forward_mode.hpp: one
gradient per function, stacked as the rows of the matrix. -/
def jacobianMulti (fs : List (List DualNumber → DualNumber))
    (u : List FV) : List (List FV) :=
  fs.map (fun f => gradient f u)

/-- The argument vectors passed to the functions by the multi-function
jacobian overloads: the calls of each per-function gradient run. -/
def multiCalls (fs : List (List DualNumber → DualNumber))
    (u : List FV) : List (List (List DualNumber)) :=
  fs.map (fun f => evalCalls f u)

/-- The initial vector has one entry per input. -/
theorem zeros_length (u : List FV) : (zeros u).length = u.length := by
  simp [zeros]

/-- Entry j of the initial vector pairs input j with dual 0.0. -/
theorem zeros_getD (u : List FV) (j : Nat) (h : j < u.length) :
    (zeros u).getD j DN0 = ⟨u.getD j (FV.fin 0), FV.fin 0⟩ := by
  induction u generalizing j with
  | nil => simp at h
  | cons x xs ih =>
    cases j with
    | zero => simp [zeros]
    | succ j =>
      have h' : j < xs.length := by simpa using h
      simpa [zeros] using ih j h'

/-- The seeded vector has one entry per input. -/
theorem specSeed_length (u : List FV) (i : Nat) :
    (specSeed u i).length = u.length := by
  induction u generalizing i with
  | nil => simp [specSeed]
  | cons x xs ih =>
    cases i with
    | zero => simp [specSeed, zeros]
    | succ i => simp [specSeed, ih]

/-- Entry j of the spec-side seeded vector for index i pairs input j with
dual 1.0 exactly when j equals i, and dual 0.0 otherwise. -/
theorem specSeed_getD (u : List FV) (i j : Nat) (h : j < u.length) :
    (specSeed u i).getD j DN0
      = ⟨u.getD j (FV.fin 0), if j = i then FV.fin 1 else FV.fin 0⟩ := by
  induction u generalizing i j with
  | nil => simp at h
  | cons x xs ih =>
    cases i with
    | zero =>
      cases j with
      | zero => simp [specSeed]
      | succ j =>
        have h' : j < xs.length := by simpa using h
        simpa [specSeed] using zeros_getD xs j h'
    | succ i =>
      cases j with
      | zero => simp [specSeed]
      | succ j =>
        have h' : j < xs.length := by simpa using h
        simpa [specSeed] using ih i j h'

/-- Setting the dual at index i to 1.0 in the all-zeros vector yields the
seeded vector for index i. -/
theorem setDualAt_one_zeros (u : List FV) (i : Nat) (h : i < u.length) :
    setDualAt (FV.fin 1) (zeros u) i = specSeed u i := by
  induction u generalizing i with
  | nil => simp at h
  | cons x xs ih =>
    cases i with
    | zero => rfl
    | succ i =>
      have h' : i < xs.length := by simpa using h
      show (⟨x, FV.fin 0⟩ : DualNumber) :: setDualAt (FV.fin 1) (zeros xs) i
          = ⟨x, FV.fin 0⟩ :: specSeed xs i
      rw [ih i h']

/-- Resetting the dual at index i to 0.0 in the seeded vector for index i
restores the all-zeros vector. -/
theorem setDualAt_zero_specSeed (u : List FV) (i : Nat) (h : i < u.length) :
    setDualAt (FV.fin 0) (specSeed u i) i = zeros u := by
  induction u generalizing i with
  | nil => simp at h
  | cons x xs ih =>
    cases i with
    | zero => rfl
    | succ i =>
      have h' : i < xs.length := by simpa using h
      show (⟨x, FV.fin 0⟩ : DualNumber) :: setDualAt (FV.fin 0) (specSeed xs i) i
          = ⟨x, FV.fin 0⟩ :: zeros xs
      rw [ih i h']

/-- Running the evaluate loop for k iterations from index i on the
all-zeros state calls f exactly once per index, each time on the seeded
vector for that index, and returns to the all-zeros state. -/
theorem evalLoop_eq (f : List DualNumber → DualNumber) (u : List FV)
    (k : Nat) :
    ∀ i, i + k ≤ u.length →
      evalLoop f (zeros u) i k
        = ((List.range' i k).map (fun j => (specSeed u j, f (specSeed u j))),
           zeros u) := by
  induction k with
  | zero => intro i _; simp [evalLoop]
  | succ k ih =>
    intro i h
    have hi : i < u.length := by omega
    have h2 : (i + 1) + k ≤ u.length := by omega
    simp only [evalLoop]
    rw [setDualAt_one_zeros u i hi, setDualAt_zero_specSeed u i hi, ih (i + 1) h2]
    simp [List.range'_succ]

/-- Running the jacobian loop for k iterations from index i on the
all-zeros state calls f exactly once per index, each time on the seeded
vector for that index, harvests the duals of the first m outputs as that
index's column, and returns to the all-zeros state. -/
theorem jacLoop_eq (m : Nat) (f : List DualNumber → List DualNumber)
    (u : List FV) (k : Nat) :
    ∀ i, i + k ≤ u.length →
      jacLoop m f (zeros u) i k
        = ((List.range' i k).map (fun j =>
              (specSeed u j,
               (List.range m).map (fun l => ((f (specSeed u j)).getD l DN0).dual))),
           zeros u) := by
  induction k with
  | zero => intro i _; simp [jacLoop]
  | succ k ih =>
    intro i h
    have hi : i < u.length := by omega
    have h2 : (i + 1) + k ≤ u.length := by omega
    simp only [jacLoop]
    rw [setDualAt_one_zeros u i hi, setDualAt_zero_specSeed u i hi, ih (i + 1) h2]
    simp [List.range'_succ]

/-- The call list of the vector evaluate overloads is the seeded vectors
in index order. -/
theorem evalCalls_eq (f : List DualNumber → DualNumber) (u : List FV) :
    evalCalls f u = (List.range' 0 u.length).map (fun j => specSeed u j) := by
  unfold evalCalls
  rw [evalLoop_eq f u u.length 0 (by omega)]
  simp

/-- The vector evaluate overloads return f of each seeded vector in index
order. -/
theorem evaluateVec_eq (f : List DualNumber → DualNumber) (u : List FV) :
    evaluateVec f u
      = (List.range' 0 u.length).map (fun j => f (specSeed u j)) := by
  unfold evaluateVec
  rw [evalLoop_eq f u u.length 0 (by omega)]
  simp

/-- The gradient is the dual of f at each seeded vector in index order. -/
theorem gradient_eq (f : List DualNumber → DualNumber) (u : List FV) :
    gradient f u
      = (List.range' 0 u.length).map (fun j => (f (specSeed u j)).dual) := by
  unfold gradient
  rw [evaluateVec_eq]
  simp [Function.comp]

/-- Reading a mapped range at an in-bounds index gives the function at
that index. -/
theorem getD_map_range' {α : Type} (g : Nat → α) (n i : Nat) (d : α)
    (h : i < n) : ((List.range' 0 n).map g).getD i d = g i := by
  have h1 : i < ((List.range' 0 n).map g).length := by simp [h]
  rw [List.getD_eq_getElem _ _ h1]
  simp

/-- Reading a mapped initial range at an in-bounds index gives the
function at that index. -/
theorem getD_map_range {α : Type} (g : Nat → α) (n i : Nat) (d : α)
    (h : i < n) : ((List.range n).map g).getD i d = g i := by
  rw [List.range_eq_range']
  exact getD_map_range' g n i d h

/-- The call list of the single-function jacobian is the seeded vectors
in index order. -/
theorem jacCalls_eq (m : Nat) (f : List DualNumber → List DualNumber)
    (u : List FV) :
    jacCalls m f u = (List.range' 0 u.length).map (fun j => specSeed u j) := by
  unfold jacCalls
  rw [jacLoop_eq m f u u.length 0 (by omega)]
  simp

/-- The single-function jacobian is, column by column, the duals of the
first m outputs of f at each seeded vector. -/
theorem jacobianF_eq (m : Nat) (f : List DualNumber → List DualNumber)
    (u : List FV) :
    jacobianF m f u
      = (List.range' 0 u.length).map (fun i =>
          (List.range m).map (fun j => ((f (specSeed u i)).getD j DN0).dual)) := by
  unfold jacobianF
  rw [jacLoop_eq m f u u.length 0 (by omega)]
  simp

/-- The vector evaluate overloads call f once per input index. -/
theorem evalCalls_length (f : List DualNumber → DualNumber) (u : List FV) :
    (evalCalls f u).length = u.length := by
  rw [evalCalls_eq]; simp

/-- Dividing any double value by finite zero yields an infinity or NaN. -/
theorem fdiv_fin_zero_special (x : FV) : (fdiv x (FV.fin 0)).isSpecial := by
  cases x with
  | fin q =>
    simp only [fdiv, FV.isSpecial]
    by_cases h0 : q = 0
    · simp [h0]
    · by_cases hpos : 0 < q
      · simp [h0, hpos]
      · simp [h0, hpos]
  | pinf => simp [fdiv, FV.isSpecial]
  | ninf => simp [fdiv, FV.isSpecial]
  | nan => simp [fdiv, FV.isSpecial]

/-- The product of finite zeros is finite zero. -/
theorem fmul_zero_zero : fmul (FV.fin 0) (FV.fin 0) = FV.fin 0 := by
  simp [fmul]

/-- C1: for every function f over a vector of DualNumbers and every input
vector u of length n, gradient returns exactly n values; entry i is the
dual component of f applied to the seeded vector whose entry at index j
is the DualNumber with primal u at j and dual 1.0 exactly when j equals
i, 0.0 otherwise; and f is called exactly n times, once per input index,
on exactly those seeded vectors. -/
theorem c1_gradient_correct (f : List DualNumber → DualNumber) (u : List FV) :
    (gradient f u).length = u.length ∧
    (∀ i, i < u.length →
      (gradient f u).getD i (FV.fin 0) = (f (specSeed u i)).dual) ∧
    (evalCalls f u).length = u.length ∧
    (∀ i, i < u.length → (evalCalls f u).getD i [] = specSeed u i) ∧
    (∀ i j, j < u.length →
      (specSeed u i).getD j DN0
        = ⟨u.getD j (FV.fin 0), if j = i then FV.fin 1 else FV.fin 0⟩) := by
  refine ⟨?_, ?_, evalCalls_length f u, ?_, ?_⟩
  · rw [gradient_eq]; simp
  · intro i hi
    rw [gradient_eq, getD_map_range' _ _ _ _ hi]
  · intro i hi
    rw [evalCalls_eq, getD_map_range' _ _ _ _ hi]
  · intro i j hj
    exact specSeed_getD u i j hj

/-- Instantiation of C1 at a concrete two-dimensional input. -/
theorem c1_gradient_correct_witness :
    (0 : Nat) < ([FV.fin 2, FV.fin 3] : List FV).length ∧
    (gradient (fun (v : List DualNumber) => v.getD 0 DN0)
        [FV.fin 2, FV.fin 3]).getD 0 (FV.fin 0)
      = ((specSeed [FV.fin 2, FV.fin 3] 0).getD 0 DN0).dual ∧
    gradient (fun (v : List DualNumber) => v.getD 0 DN0) [FV.fin 2, FV.fin 3]
      = [FV.fin 1, FV.fin 0] :=
  ⟨by decide,
   (c1_gradient_correct (fun (v : List DualNumber) => v.getD 0 DN0)
     [FV.fin 2, FV.fin 3]).2.1 0 (by decide),
   by decide⟩

/-- C2: the single-function jacobian of output arity m over an input of
length n calls f exactly n times, once per seeded input dimension and
independently of m; the result is an m-by-n matrix (n columns of m
entries) whose entry at row j and column i is the dual component of
output j of f applied to the vector seeded at index i. -/
theorem c2_jacobian_single_correct (m : Nat)
    (f : List DualNumber → List DualNumber) (u : List FV)
    (hf : ∀ v, (f v).length = m) :
    (jacCalls m f u).length = u.length ∧
    (∀ i, i < u.length → (jacCalls m f u).getD i [] = specSeed u i) ∧
    (jacobianF m f u).length = u.length ∧
    (∀ i, i < u.length → ((jacobianF m f u).getD i []).length = m) ∧
    (∀ (j i : Nat) (hj : j < m) (_hi : i < u.length),
      jacEntry m f u j i
        = ((f (specSeed u i)).get ⟨j, by rw [hf]; exact hj⟩).dual) := by
  refine ⟨?_, ?_, ?_, ?_, ?_⟩
  · rw [jacCalls_eq]; simp
  · intro i hi
    rw [jacCalls_eq, getD_map_range' _ _ _ _ hi]
  · rw [jacobianF_eq]; simp
  · intro i hi
    rw [jacobianF_eq, getD_map_range' _ _ _ _ hi]
    simp
  · intro j i hj hi
    unfold jacEntry
    rw [jacobianF_eq, getD_map_range' _ _ _ _ hi, getD_map_range _ _ _ _ hj,
        List.getD_eq_getElem _ _ (by rw [hf]; exact hj)]
    simp

/-- Instantiation of C2 at a concrete one-output function over a
one-dimensional input. -/
theorem c2_jacobian_single_correct_witness :
    (∀ v : List DualNumber,
      ((fun _ => [(⟨FV.fin 0, FV.fin 5⟩ : DualNumber)]) v).length = 1) ∧
    (jacCalls 1 (fun _ => [(⟨FV.fin 0, FV.fin 5⟩ : DualNumber)])
        [FV.fin 2]).length = ([FV.fin 2] : List FV).length ∧
    jacEntry 1 (fun _ => [(⟨FV.fin 0, FV.fin 5⟩ : DualNumber)])
        [FV.fin 2] 0 0 = FV.fin 5 :=
  ⟨fun _ => rfl,
   (c2_jacobian_single_correct 1
     (fun _ => [(⟨FV.fin 0, FV.fin 5⟩ : DualNumber)]) [FV.fin 2]
     (fun _ => rfl)).1,
   by decide⟩

/-- C3: the DualNumber product has primal the product of the primals and
dual following the product rule, and the value-returning product agrees
with the compound-assignment operator. -/
theorem c3_mul_product_rule (a b : DualNumber) :
    (DualNumber.mul a b).primal = fmul a.primal b.primal ∧
    (DualNumber.mul a b).dual
      = fadd (fmul a.primal b.dual) (fmul a.dual b.primal) ∧
    DualNumber.mulAssign a b = DualNumber.mul a b :=
  ⟨rfl, rfl, rfl⟩

/-- C4: the DualNumber quotient has primal the quotient of the primals
and dual following the quotient rule, the value-returning quotient agrees
with the compound-assignment operator, and a zero divisor primal makes
both components of the result infinite or NaN rather than an error. -/
theorem c4_div_quotient_rule (a b : DualNumber) :
    (DualNumber.div a b).primal = fdiv a.primal b.primal ∧
    (DualNumber.div a b).dual
      = fdiv (fsub (fmul a.dual b.primal) (fmul a.primal b.dual))
             (fmul b.primal b.primal) ∧
    DualNumber.divAssign a b = DualNumber.div a b ∧
    (b.primal = FV.fin 0 →
      (DualNumber.div a b).primal.isSpecial ∧
      (DualNumber.div a b).dual.isSpecial) := by
  refine ⟨rfl, rfl, rfl, ?_⟩
  intro hb
  constructor
  · show (fdiv a.primal b.primal).isSpecial
    rw [hb]
    exact fdiv_fin_zero_special _
  · show (fdiv (fsub (fmul a.dual b.primal) (fmul a.primal b.dual))
             (fmul b.primal b.primal)).isSpecial
    rw [hb, fmul_zero_zero]
    exact fdiv_fin_zero_special _

/-- Instantiation of C4 at a concrete DualNumber with zero divisor
primal. -/
theorem c4_div_quotient_rule_witness :
    (⟨FV.fin 0, FV.fin 0⟩ : DualNumber).primal = FV.fin 0 ∧
    (DualNumber.div ⟨FV.fin 1, FV.fin 0⟩ ⟨FV.fin 0, FV.fin 0⟩).primal.isSpecial ∧
    (DualNumber.div ⟨FV.fin 1, FV.fin 0⟩ ⟨FV.fin 0, FV.fin 0⟩).dual.isSpecial :=
  ⟨rfl,
   ((c4_div_quotient_rule ⟨FV.fin 1, FV.fin 0⟩ ⟨FV.fin 0, FV.fin 0⟩).2.2.2 rfl).1,
   ((c4_div_quotient_rule ⟨FV.fin 1, FV.fin 0⟩ ⟨FV.fin 0, FV.fin 0⟩).2.2.2 rfl).2⟩

/-- C5: the scalar evaluate is exactly f applied once to the DualNumber
seeded with primal u and dual 1.0, and derivative is the dual component
of that evaluate. -/
theorem c5_evaluate_scalar_correct (f : DualNumber → DualNumber) (u : FV) :
    evaluate f u = f ⟨u, FV.fin 1⟩ ∧
    derivative f u = (evaluate f u).dual :=
  ⟨rfl, rfl⟩

/-- C6: the multi-function jacobian has one row per function, row i being
the gradient of function i, so that entry (i, j) is the dual of function
i applied to the vector seeded at input index j, and the functions are
evaluated m times n in total. -/
theorem c6_jacobian_multi_correct (fs : List (List DualNumber → DualNumber))
    (u : List FV) :
    (jacobianMulti fs u).length = fs.length ∧
    (∀ (i : Nat) (hi : i < fs.length),
      (jacobianMulti fs u).getD i [] = gradient (fs.get ⟨i, hi⟩) u) ∧
    (∀ (i : Nat) (hi : i < fs.length) (j : Nat), j < u.length →
      ((jacobianMulti fs u).getD i []).getD j (FV.fin 0)
        = ((fs.get ⟨i, hi⟩) (specSeed u j)).dual) ∧
    ((multiCalls fs u).map List.length).sum = fs.length * u.length := by
  have hrow : ∀ (i : Nat) (hi : i < fs.length),
      (jacobianMulti fs u).getD i [] = gradient (fs.get ⟨i, hi⟩) u := by
    intro i hi
    unfold jacobianMulti
    rw [List.getD_eq_getElem _ _ (by simpa using hi)]
    simp
  refine ⟨by simp [jacobianMulti], hrow, ?_, ?_⟩
  · intro i hi j hj
    rw [hrow i hi, gradient_eq, getD_map_range' _ _ _ _ hj]
  · have h1 : (multiCalls fs u).map List.length
        = List.replicate fs.length u.length := by
      unfold multiCalls
      rw [List.map_map]
      have : (List.length ∘ fun f => evalCalls f u) = fun _ => u.length := by
        funext f
        exact evalCalls_length f u
      rw [this, List.map_const']
    rw [h1, List.sum_replicate, smul_eq_mul]

/-- Instantiation of C6 at two concrete functions over a two-dimensional
input. -/
theorem c6_jacobian_multi_correct_witness :
    (0 : Nat) < ([fun (v : List DualNumber) => v.getD 0 DN0,
        fun (v : List DualNumber) => v.getD 1 DN0] :
        List (List DualNumber → DualNumber)).length ∧
    ((multiCalls [fun (v : List DualNumber) => v.getD 0 DN0,
        fun (v : List DualNumber) => v.getD 1 DN0]
        [FV.fin 2, FV.fin 3]).map List.length).sum = 2 * 2 :=
  ⟨by decide,
   (c6_jacobian_multi_correct [fun (v : List DualNumber) => v.getD 0 DN0,
     fun (v : List DualNumber) => v.getD 1 DN0]
     [FV.fin 2, FV.fin 3]).2.2.2⟩

/-- C7: the embedded operations are total functions, and the enumerated
domain and arithmetic failures surface as NaN or infinite components: a
zero divisor primal makes both quotient components infinite or NaN; a
non-positive or negatively infinite primal makes the log primal NaN or
negative infinity; a primal outside the closed unit interval or infinite
makes the asin, acos and atanh primals NaN; and a primal below one or
negatively infinite makes the acosh primal NaN. -/
theorem c7_domain_failures_nan (L : RealFuns) :
    (∀ a b : DualNumber, b.primal = FV.fin 0 →
      (DualNumber.div a b).primal.isSpecial ∧
      (DualNumber.div a b).dual.isSpecial) ∧
    (∀ (num : DualNumber) (q : ℚ), num.primal = FV.fin q → q ≤ 0 →
      (log L num).primal = FV.nan ∨ (log L num).primal = FV.ninf) ∧
    (∀ num : DualNumber, num.primal = FV.ninf →
      (log L num).primal = FV.nan) ∧
    (∀ (num : DualNumber) (q : ℚ), num.primal = FV.fin q → 1 < |q| →
      (asin L num).primal = FV.nan ∧ (acos L num).primal = FV.nan ∧
      (atanh L num).primal = FV.nan) ∧
    (∀ num : DualNumber,
      num.primal = FV.pinf ∨ num.primal = FV.ninf →
      (asin L num).primal = FV.nan ∧ (acos L num).primal = FV.nan ∧
      (atanh L num).primal = FV.nan) ∧
    (∀ (num : DualNumber) (q : ℚ), num.primal = FV.fin q → q < 1 →
      (acosh L num).primal = FV.nan) ∧
    (∀ num : DualNumber, num.primal = FV.ninf →
      (acosh L num).primal = FV.nan) := by
  refine ⟨?_, ?_, ?_, ?_, ?_, ?_, ?_⟩
  · intro a b hb
    exact (c4_div_quotient_rule a b).2.2.2 hb
  · intro num q hq hle
    show mstdlog L num.primal = FV.nan ∨ mstdlog L num.primal = FV.ninf
    rw [hq]
    rcases lt_or_eq_of_le hle with hlt | heq
    · left; simp [mstdlog, hlt]
    · right; simp [mstdlog, heq.symm]
  · intro num h
    show mstdlog L num.primal = FV.nan
    rw [h]; rfl
  · intro num q hq habs
    have h1 : q ≠ 1 := by
      rintro rfl; simp at habs
    have h2 : q ≠ -1 := by
      rintro rfl; simp at habs
    refine ⟨?_, ?_, ?_⟩
    · show mstdasin L num.primal = FV.nan
      rw [hq]; simp [mstdasin, habs]
    · show mstdacos L num.primal = FV.nan
      rw [hq]; simp [mstdacos, habs]
    · show mstdatanh L num.primal = FV.nan
      rw [hq]; simp [mstdatanh, h1, h2, habs]
  · intro num h
    rcases h with h | h
    · exact ⟨by show mstdasin L num.primal = FV.nan; rw [h]; rfl,
             by show mstdacos L num.primal = FV.nan; rw [h]; rfl,
             by show mstdatanh L num.primal = FV.nan; rw [h]; rfl⟩
    · exact ⟨by show mstdasin L num.primal = FV.nan; rw [h]; rfl,
             by show mstdacos L num.primal = FV.nan; rw [h]; rfl,
             by show mstdatanh L num.primal = FV.nan; rw [h]; rfl⟩
  · intro num q hq hlt
    show mstdacosh L num.primal = FV.nan
    rw [hq]; simp [mstdacosh, hlt]
  · intro num h
    show mstdacosh L num.primal = FV.nan
    rw [h]; rfl

/-- Instantiation of C7 at concrete failing inputs. -/
theorem c7_domain_failures_nan_witness :
    ((⟨FV.fin (-2), FV.fin 1⟩ : DualNumber).primal = FV.fin (-2) ∧
      (-2 : ℚ) ≤ 0) ∧
    ((log trivFuns ⟨FV.fin (-2), FV.fin 1⟩).primal = FV.nan ∨
     (log trivFuns ⟨FV.fin (-2), FV.fin 1⟩).primal = FV.ninf) ∧
    ((asin trivFuns ⟨FV.fin 2, FV.fin 1⟩).primal = FV.nan ∧
     (acos trivFuns ⟨FV.fin 2, FV.fin 1⟩).primal = FV.nan ∧
     (atanh trivFuns ⟨FV.fin 2, FV.fin 1⟩).primal = FV.nan) :=
  ⟨⟨rfl, by decide⟩,
   (c7_domain_failures_nan trivFuns).2.1 ⟨FV.fin (-2), FV.fin 1⟩ (-2) rfl
     (by decide),
   (c7_domain_failures_nan trivFuns).2.2.2.1 ⟨FV.fin 2, FV.fin 1⟩ 2 rfl
     (by decide)⟩

/-- C8 fails as stated: when the two operands are one and the same object
(the address test of operator==), comparing a NaN-primal DualNumber with
itself returns true although the component differences are not both
strictly below machine epsilon. -/
theorem c8_equality_counterexample :
    DualNumber.beq true ⟨FV.nan, FV.fin 0⟩ ⟨FV.nan, FV.fin 0⟩ = true ∧
    ¬(flt (fabs (fsub FV.nan FV.nan)) eps = true ∧
      flt (fabs (fsub (FV.fin 0) (FV.fin 0))) eps = true) := by
  decide

/-- C8 amended: for distinct objects operator== returns true exactly when
both component differences are strictly below machine epsilon (a
comparison involving NaN or infinite differences is false); when both
operands are one object operator== returns true regardless of the
components; and operator!= is the negation of operator== in every case. -/
theorem c8_equality_amended (s : Bool) (a b : DualNumber) :
    (DualNumber.beq false a b = true ↔
      (flt (fabs (fsub a.primal b.primal)) eps = true ∧
       flt (fabs (fsub a.dual b.dual)) eps = true)) ∧
    DualNumber.beq true a b = true ∧
    DualNumber.bne s a b = !(DualNumber.beq s a b) := by
  refine ⟨?_, rfl, rfl⟩
  simp [DualNumber.beq]

/-- C9: abs returns the pair of the absolute primal and the dual times
the primal divided by the absolute primal; a zero primal is not
special-cased, so there the dual component is the NaN of a zero-by-zero
division. -/
theorem c9_abs_correct (a : DualNumber) :
    abs a = ⟨fabs a.primal, fdiv (fmul a.dual a.primal) (fabs a.primal)⟩ ∧
    (a.primal = FV.fin 0 → (abs a).dual = FV.nan) := by
  refine ⟨rfl, ?_⟩
  intro h
  show fdiv (fmul a.dual a.primal) (fabs a.primal) = FV.nan
  rw [h]
  cases a.dual with
  | fin d => simp [fmul, fabs, fdiv]
  | pinf => simp [fmul, fabs, fdiv]
  | ninf => simp [fmul, fabs, fdiv]
  | nan => simp [fmul, fabs, fdiv]

/-- Instantiation of C9 at a concrete DualNumber with zero primal. -/
theorem c9_abs_correct_witness :
    (⟨FV.fin 0, FV.fin 3⟩ : DualNumber).primal = FV.fin 0 ∧
    (abs ⟨FV.fin 0, FV.fin 3⟩).dual = FV.nan :=
  ⟨rfl, (c9_abs_correct ⟨FV.fin 0, FV.fin 3⟩).2 rfl⟩

/-- C10: in each seeded-evaluation loop (the vector evaluate overloads and
the vector-valued jacobian overloads), the vector handed to f on
iteration i has dual 1.0 exactly at entry i and dual 0.0 everywhere else,
and once the loop completes the shared vector again has every dual
component equal to 0.0, so the n seeded calls of a pure f are mutually
independent although one mutable vector is reused. -/
theorem c10_seed_vector_invariant (f : List DualNumber → DualNumber)
    (g : List DualNumber → List DualNumber) (m : Nat) (u : List FV) :
    (∀ i, i < u.length → (evalCalls f u).getD i [] = specSeed u i) ∧
    (evalLoop f (zeros u) 0 u.length).2 = zeros u ∧
    (∀ i, i < u.length → (jacCalls m g u).getD i [] = specSeed u i) ∧
    (jacLoop m g (zeros u) 0 u.length).2 = zeros u ∧
    (∀ i j, j < u.length →
      ((specSeed u i).getD j DN0).dual
        = if j = i then FV.fin 1 else FV.fin 0) ∧
    (∀ j, j < u.length → ((zeros u).getD j DN0).dual = FV.fin 0) := by
  refine ⟨?_, ?_, ?_, ?_, ?_, ?_⟩
  · intro i hi
    rw [evalCalls_eq, getD_map_range' _ _ _ _ hi]
  · rw [evalLoop_eq f u u.length 0 (by omega)]
  · intro i hi
    rw [jacCalls_eq, getD_map_range' _ _ _ _ hi]
  · rw [jacLoop_eq m g u u.length 0 (by omega)]
  · intro i j hj
    rw [specSeed_getD u i j hj]
  · intro j hj
    rw [zeros_getD u j hj]

/-- Instantiation of C10 at a concrete two-dimensional input. -/
theorem c10_seed_vector_invariant_witness :
    (0 : Nat) < ([FV.fin 2, FV.fin 3] : List FV).length ∧
    (evalCalls (fun (v : List DualNumber) => v.getD 0 DN0)
        [FV.fin 2, FV.fin 3]).getD 0 []
      = specSeed [FV.fin 2, FV.fin 3] 0 ∧
    (evalLoop (fun (v : List DualNumber) => v.getD 0 DN0)
        (zeros [FV.fin 2, FV.fin 3]) 0 2).2
      = zeros [FV.fin 2, FV.fin 3] :=
  ⟨by decide,
   (c10_seed_vector_invariant (fun (v : List DualNumber) => v.getD 0 DN0)
     (fun (v : List DualNumber) => [v.getD 0 DN0]) 1 [FV.fin 2, FV.fin 3]).1 0
     (by decide),
   (c10_seed_vector_invariant (fun (v : List DualNumber) => v.getD 0 DN0)
     (fun (v : List DualNumber) => [v.getD 0 DN0]) 1 [FV.fin 2, FV.fin 3]).2.1⟩

end Algodiff
